import Mathlib

/-!
Shallow embedding of the pyinotifyd core (src/pyinotifyd/scheduler.py and
src/pyinotifyd/__init__.py) and proofs about it.

The scheduler runs on a single-threaded cooperative event loop.  Each
atomic step below models one entry-point call (or one resumption of a
suspended coroutine) up to its next suspension point, exactly as the
Python code executes it on the loop:

* `process_event` models `TaskScheduler.process_event` together with the
  synchronous prefix of `_run_job` (which runs until the first `await`
  when invoked with `await self._run_job(...)`);
* `timer_fire` models the resumption of a `_run_job` coroutine whose
  delay timer (`asyncio.sleep`) completed without being cancelled;
* `job_finish` models the resumption of `_run_job` when the job task
  completes (successfully, with an exception, or cancelled): the
  `try/except/else/finally` tail with the `del self._tasks[task_index]`
  in the `finally` block.

Machine-level details irrelevant to the verified claims (uuid strings,
wall-clock time, the logging adapter's suffixes) are abstracted: task
ids are drawn from a counter, and logging records (level, message).
-/

namespace Pyinotifyd

/-- Input event record (the pyinotify `Event` fields the core reads):
`pathname`, `maskname`, `dir`, and the optional `src_pathname`. -/
structure Event where
  pathname : String
  maskname : String
  dir : Bool
  src_pathname : Option String
deriving DecidableEq

/-- Python exceptions that can escape the modelled code paths. -/
inductive PyErr where
  | attributeError (msg : String)
  | typeError (msg : String)
  | keyError (key : String)
  | assertionError (msg : String)
deriving DecidableEq

/-- The asynchronous handle stored in `TaskState.task`.  Over a
TaskState's lifetime two handles pass through the field: first the
delay timer (`asyncio.sleep(delay)`), then the job task.  A cancelled
sleep resumes its waiting `_run_job` with `CancelledError`, which
returns without touching the scheduler state. -/
inductive Handle where
  | sleepH (ev : Event) (cancelled : Bool)
  | jobH
deriving DecidableEq

/-- `TaskScheduler.TaskState`: `id` (uuid, modelled by a counter value),
`task` (the current handle; `None` directly after construction), and
`cancelable` (initially `True`). -/
structure TaskState where
  id : Nat
  task : Option Handle
  cancelable : Bool
deriving DecidableEq

/-- Python logging levels used by the scheduler. -/
inductive LogLevel where
  | debug | info | warning | error | exception
deriving DecidableEq

/-- State of a `TaskScheduler` instance: the constructor-set
configuration (`files`, `dirs`, `delay`, `singlejob`), the `_pause`
flag, the `_tasks` map, plus two observation traces: `ran` records each
job task the scheduler has started (event passed to the job and the
TaskState id), `logs` records emitted log lines. -/
structure TaskScheduler where
  files : Bool
  dirs : Bool
  delay : Nat
  singlejob : Bool
  pause : Bool
  tasks : String → Option TaskState
  nextId : Nat
  ran : List (Event × Nat)
  logs : List (LogLevel × String)

/-- Point update of the `_tasks` map. -/
def updT (t : String → Option TaskState) (k : String) (v : Option TaskState) :
    String → Option TaskState :=
  fun x => if x = k then v else t x

/-- `TaskScheduler.taskindex` (scheduler.py:107): the constant key
`"singlejob"` in single-job mode, else the event's pathname. -/
def taskindex (s : TaskScheduler) (e : Event) : String :=
  if s.singlejob then "singlejob" else e.pathname

/-- The files/dirs acceptance filter at the top of `process_event`
(scheduler.py:154): the event is kept iff
`(not event.dir and files) or (event.dir and dirs)`. -/
def acceptEvent (s : TaskScheduler) (e : Event) : Bool :=
  (!e.dir && s.files) || (e.dir && s.dirs)

def msgSchedule : String := "schedule task"
def msgReschedule : String := "re-schedule task"
def msgStart : String := "start task"
def msgFinished : String := "task finished"
def msgOngoingCancelled : String := "ongoing task cancelled"
def msgSchedCancelled : String := "scheduled task cancelled"
def msgSkip : String := "skip event due to ongoing task"

/-- Synchronous prefix of `TaskScheduler._run_job` (scheduler.py:110):
with `delay > 0` it creates the sleep task, stores it in
`task_state.task`, logs "schedule task" (prefixed "re-" on restart) and
suspends awaiting the sleep; with `delay = 0` it immediately creates
the job task, stores it, clears `cancelable` and logs "start task"
before suspending on the job. -/
def runJobStart (s : TaskScheduler) (k : String) (e : Event)
    (ts : TaskState) (restart : Bool) : TaskScheduler :=
  if 0 < s.delay then
    { s with
      tasks := updT s.tasks k (some { ts with task := some (Handle.sleepH e false) }),
      logs := s.logs ++
        [(LogLevel.info, if restart then msgReschedule else msgSchedule)] }
  else
    { s with
      tasks := updT s.tasks k
        (some { ts with task := some Handle.jobH, cancelable := false }),
      ran := s.ran ++ [(e, ts.id)],
      logs := s.logs ++ [(LogLevel.info, msgStart)] }

/-- `task.cancel()` on a stored handle: a pending sleep is marked
cancelled (its waiting `_run_job` will resume with `CancelledError`
and return without touching the scheduler); a job handle is left as is
(the code only reaches `cancel` on `cancelable` states). -/
def cancelHandle : Handle → Handle
  | Handle.sleepH e _ => Handle.sleepH e true
  | Handle.jobH => Handle.jobH

/-- `TaskScheduler.process_event` (scheduler.py:153).  Returns
`Except.error` when the Python code would raise to the caller:
`task_state.task.cancel()` raises `AttributeError` when the stored
task is `None` (which happens for entries admitted while paused). -/
def process_event (s : TaskScheduler) (e : Event) : Except PyErr TaskScheduler :=
  if !acceptEvent s e then Except.ok s
  else
    let k := taskindex s e
    match s.tasks k with
    | none =>
        let ts : TaskState := ⟨s.nextId, none, true⟩
        let s1 := { s with tasks := updT s.tasks k (some ts), nextId := s.nextId + 1 }
        if s1.pause then Except.ok s1
        else Except.ok (runJobStart s1 k e ts false)
    | some ts =>
        if ts.cancelable then
          match ts.task with
          | none =>
              Except.error (PyErr.attributeError
                "NoneType object has no attribute cancel")
          | some h =>
              let ts1 := { ts with task := some (cancelHandle h) }
              let s1 := { s with tasks := updT s.tasks k (some ts1) }
              if s1.pause then
                Except.ok { s1 with
                  logs := s1.logs ++ [(LogLevel.info, msgSchedCancelled)] }
              else Except.ok (runJobStart s1 k e ts1 true)
        else
          Except.ok { s with logs := s.logs ++ [(LogLevel.warning, msgSkip)] }

/-- `TaskScheduler.process_cancel_event` (scheduler.py:184): look up the
key (no files/dirs filter here); on a `cancelable` entry cancel the
handle, log, and delete the entry; on a non-cancelable entry log a
warning and leave it; on a missing key return.  As in `process_event`,
`task_state.task.cancel()` raises `AttributeError` if the stored task
is `None`. -/
def process_cancel_event (s : TaskScheduler) (e : Event) :
    Except PyErr TaskScheduler :=
  let k := taskindex s e
  match s.tasks k with
  | none => Except.ok s
  | some ts =>
      if ts.cancelable then
        match ts.task with
        | none =>
            Except.error (PyErr.attributeError
              "NoneType object has no attribute cancel")
        | some _ =>
            Except.ok { s with
              tasks := updT s.tasks k none,
              logs := s.logs ++ [(LogLevel.info, msgSchedCancelled)] }
      else
        Except.ok { s with logs := s.logs ++ [(LogLevel.warning, msgSkip)] }

/-- Resumption of `_run_job` when the delay timer at key `k` fires
without having been cancelled (scheduler.py:130): log "start task",
create the job task, store it in `task_state.task` and clear
`cancelable`.  A cancelled sleep resumes with `CancelledError` and
`_run_job` returns, leaving the state untouched; note there is no
pause check after the sleep. -/
def timer_fire (s : TaskScheduler) (k : String) : TaskScheduler :=
  match s.tasks k with
  | some ts =>
      match ts.task with
      | some (Handle.sleepH e false) =>
          { s with
            tasks := updT s.tasks k
              (some { ts with task := some Handle.jobH, cancelable := false }),
            ran := s.ran ++ [(e, ts.id)],
            logs := s.logs ++ [(LogLevel.info, msgStart)] }
      | _ => s
  | none => s

/-- Outcome of awaiting the job task in `_run_job`. -/
inductive JobOutcome where
  | success | raised | cancelled
deriving DecidableEq

/-- Tail of `_run_job` (scheduler.py:142): await the job task; on
`CancelledError` log a warning, otherwise log that the task finished;
in the `finally` block recompute `taskindex(event)` and
`del self._tasks[task_index]` — which raises `KeyError` if the entry
is gone. -/
def job_finish (s : TaskScheduler) (e : Event) (o : JobOutcome) :
    Except PyErr TaskScheduler :=
  match s.tasks (taskindex s e) with
  | none => Except.error (PyErr.keyError (taskindex s e))
  | some _ =>
      Except.ok { s with
        tasks := updT s.tasks (taskindex s e) none,
        logs := s.logs ++
          [if o = JobOutcome.cancelled then
            (LogLevel.warning, msgOngoingCancelled)
           else (LogLevel.info, msgFinished)] }

/-- Process a whole sequence of events, propagating any raised
exception. -/
def processSeq (s : TaskScheduler) (es : List Event) :
    Except PyErr TaskScheduler :=
  es.foldlM process_event s

/-! ## ShellScheduler (scheduler.py:219) -/

/-- The apostrophe character, as a string. -/
def sq : String := String.singleton (Char.ofNat 39)

/-- Whether `pat` is a prefix of the second list. -/
def isPrefixOfList : List Char → List Char → Bool
  | [], _ => true
  | _ :: _, [] => false
  | a :: as, b :: bs => a = b && isPrefixOfList as bs

/-- Left-to-right non-overlapping replacement on character lists, the
semantics of Python `str.replace` for a non-empty pattern.  The fuel
argument bounds the recursion; it never runs out when started at the
length of the scanned list, because every step consumes at least one
character. -/
def replaceListAux (pat repl : List Char) : Nat → List Char → List Char
  | 0, cs => cs
  | fuel + 1, cs =>
      match cs with
      | [] => []
      | c :: rest =>
          if isPrefixOfList pat cs then
            repl ++ replaceListAux pat repl fuel (cs.drop pat.length)
          else
            c :: replaceListAux pat repl fuel rest

/-- Python `str.replace` (all occurrences), for non-empty patterns; an
empty pattern leaves the string unchanged (that case never arises
below). -/
def pyReplace (s pat repl : String) : String :=
  if pat = "" then s
  else (replaceListAux pat.data repl.data s.data.length s.data).asString

/-- Characters CPython's `shlex.quote` considers safe: its unsafe-char
regex (with `re.ASCII`) matches anything outside ASCII alphanumerics,
underscore and the punctuation `@ % + = : , . - slash`, so a string is
left unquoted iff it consists solely of those characters. -/
def shellSafeChar (c : Char) : Bool :=
  c.isAlpha || c.isDigit || c = '_' || c = '@' || c = '%' || c = '+' ||
    c = '=' || c = ':' || c = ',' || c = '.' || c = '/' || c = '-'

/-- CPython `shlex.quote` (imported as `shell_quote` in scheduler.py):
the empty string quotes to two apostrophes; a string of safe
characters is returned unchanged; otherwise the string is wrapped in
apostrophes with each inner apostrophe replaced by the five-character
sequence apostrophe, double-quote, apostrophe, double-quote,
apostrophe. -/
def shell_quote (s : String) : String :=
  if s = "" then sq ++ sq
  else if s.data.all shellSafeChar then s
  else sq ++ pyReplace s sq (sq ++ "\x22" ++ sq ++ "\x22" ++ sq) ++ sq

/-- `event.maskname.split("|", 1)[0]` (scheduler.py:229): the part of
the maskname before the first vertical bar. -/
def primaryFlag (maskname : String) : String :=
  (maskname.data.takeWhile (fun c => c ≠ '|')).asString

/-- The command string built by `ShellScheduler._shell_job`
(scheduler.py:228): `src_pathname` defaults to the empty string when
the event lacks the attribute, then the three placeholders are
substituted, each with the shell-quoted value, in the order
`{maskname}`, `{pathname}`, `{src_pathname}`. -/
def shellJobCmd (cmd : String) (e : Event) : String :=
  let maskname := primaryFlag e.maskname
  let src_pathname := e.src_pathname.getD ""
  pyReplace
    (pyReplace (pyReplace cmd "{maskname}" (shell_quote maskname))
      "{pathname}" (shell_quote e.pathname))
    "{src_pathname}" (shell_quote src_pathname)

/-! ## FileManagerRule / FileManagerScheduler (scheduler.py:251, 291) -/

/-- The three valid `FileManagerRule` actions. -/
inductive FMAction where
  | copy | move | delete
deriving DecidableEq

/-- `FileManagerRule`: the compiled regex is external (Python `re`), so
it is abstracted by its two uses, `matchFn p` for `src_re.match(p)`
being non-`None` and `subFn p` for `src_re.sub(dst_re, p)`.  The
source field `rec` is named `recFlag` here (`rec` is reserved in
Lean).  The mode/owner fields only drive the fixup operations and are
not needed by the verified claims. -/
structure FileManagerRule where
  action : FMAction
  matchFn : String → Bool
  subFn : String → String
  auto_create : Bool
  overwrite : Bool
  recFlag : Bool

/-- Filesystem oracle: the two predicates the job consults before
acting (`os.path.exists` and `os.path.isdir`). -/
structure FS where
  pathExists : String → Bool
  isdir : String → Bool

/-- Filesystem operations the job can perform; `fixup p` stands for
`_set_mode_and_owner(p, rule)`. -/
inductive FSOp where
  | makedirs (p : String)
  | fixup (p : String)
  | copytree (src dst : String)
  | copy2 (src dst : String)
  | rename (src dst : String)
  | rmtree (p : String)
  | rmdir (p : String)
  | removeFile (p : String)
deriving DecidableEq

/-- `os.path.dirname` (posixpath): everything up to the last slash,
with trailing slashes stripped unless the head is all slashes. -/
def dirname (p : String) : String :=
  let cs := p.data
  let ridx := cs.reverse.findIdx (fun c => c = '/')
  if ridx = cs.length then ""
  else
    let head := cs.take (cs.length - ridx)
    if head.all (fun c => c = '/') then head.asString
    else ((head.reverse.dropWhile (fun c => c = '/')).reverse).asString

/-- The `first_subdir` loop in `_manager_job` (scheduler.py:400): walk
upward from `dst_dir` while neither the current path nor its parent is
an existing directory.  The Python `while` loop terminates because
`dirname` eventually reaches an existing ancestor (or the filesystem
root); here the recursion carries explicit fuel bounding the number of
iterations. -/
def firstSubdirLoop (fs : FS) : Nat → String → String
  | 0, cur => cur
  | fuel + 1, cur =>
      if fs.isdir cur then cur
      else
        let parent := dirname cur
        if !fs.isdir parent then firstSubdirLoop fs fuel parent
        else cur

/-- `FileManagerScheduler._get_rule_by_event` (scheduler.py:305): first
rule whose `src_re` matches the pathname. -/
def get_rule_by_event (rules : List FileManagerRule) (path : String) :
    Option FileManagerRule :=
  rules.find? (fun r => r.matchFn path)

/-- The `try` body of `FileManagerScheduler._manager_job`
(scheduler.py:383-443) for a given rule, as the list of filesystem
operations performed; `Except.error` is a raised `RuntimeError`
message.  For copy/move: the destination is the regex substitution of
the pathname; an empty destination or an existing destination without
`overwrite` raises before any operation; otherwise the missing
destination directory is created when `auto_create` is set (with a
fixup of the shallowest freshly created ancestor), the copy / copytree
/ rename is performed, and the destination gets a final fixup.  For
delete: remove the directory (recursively iff `recFlag`) or the
file.  In this model the filesystem operations themselves succeed. -/
def managerJobTry (fs : FS) (rule : FileManagerRule) (path : String) :
    Except String (List FSOp) :=
  match rule.action with
  | FMAction.delete =>
      if fs.isdir path then
        if rule.recFlag then Except.ok [FSOp.rmtree path]
        else Except.ok [FSOp.rmdir path]
      else Except.ok [FSOp.removeFile path]
  | a =>
      let dst := rule.subFn path
      if dst = "" then
        Except.error "resulting destination path is empty"
      else if fs.pathExists dst && !rule.overwrite then
        Except.error "path already exists"
      else
        let dst_dir := dirname dst
        let mkOps :=
          if !fs.isdir dst_dir && rule.auto_create then
            [FSOp.makedirs dst_dir,
             FSOp.fixup (firstSubdirLoop fs (dst.length + 1) dst_dir)]
          else []
        let actOps :=
          if a = FMAction.copy then
            if fs.isdir path then [FSOp.copytree path dst]
            else [FSOp.copy2 path dst]
          else [FSOp.rename path dst]
        Except.ok (mkOps ++ actOps ++ [FSOp.fixup dst])

/-- `FileManagerScheduler._manager_job` (scheduler.py:376): look up the
rule again (return silently if none matches) and run the `try` body; a
raised `RuntimeError` is absorbed by `except RuntimeError:
logger.error(e)`, so the job reports it at error level and performs no
further operation.  The job never propagates an exception (the final
`except Exception` logs at exception level). -/
def manager_job (fs : FS) (rules : List FileManagerRule) (path : String) :
    List FSOp × List (LogLevel × String) :=
  match get_rule_by_event rules path with
  | none => ([], [])
  | some rule =>
      match managerJobTry fs rule path with
      | Except.ok ops => (ops, [])
      | Except.error m => ([], [(LogLevel.error, m)])

/-- Constructor keyword arguments a caller may pass through
`FileManagerScheduler(rules, ..., **kwargs)` down to
`TaskScheduler.__init__`; `singlejob = some b` means the caller passed
`singlejob=b` explicitly. -/
structure TSKwargs where
  files : Bool
  dirs : Bool
  delay : Nat
  singlejob : Option Bool

/-- `FileManagerScheduler.__init__` (scheduler.py:292): it calls
`super().__init__(*args, **kwargs, job=self._manager_job,
singlejob=False)`.  If the caller's kwargs already contain
`singlejob`, Python raises `TypeError` (duplicate value for the
keyword argument) before any state is built; otherwise the base
scheduler is constructed with `singlejob=False`. -/
def fileManagerScheduler_init (rules : List FileManagerRule)
    (kw : TSKwargs) : Except PyErr (TaskScheduler × List FileManagerRule) :=
  match kw.singlejob with
  | some _ =>
      Except.error (PyErr.typeError
        "got multiple values for keyword argument singlejob")
  | none =>
      Except.ok
        ({ files := kw.files, dirs := kw.dirs, delay := kw.delay,
           singlejob := false, pause := false, tasks := fun _ => none,
           nextId := 0, ran := [], logs := [] }, rules)

/-! ## EventMap (src/pyinotifyd/__init__.py:73) -/

/-- `EventMap.flags`: the keys of pyinotify's `EventsCodes.OP_FLAGS`
merged with `EventsCodes.EVENT_FLAGS` (external constant of the
pyinotify dependency). -/
def pyinotifyFlags : List String :=
  ["IN_ACCESS", "IN_MODIFY", "IN_ATTRIB", "IN_CLOSE_WRITE",
   "IN_CLOSE_NOWRITE", "IN_OPEN", "IN_MOVED_FROM", "IN_MOVED_TO",
   "IN_CREATE", "IN_DELETE", "IN_DELETE_SELF", "IN_MOVE_SELF",
   "IN_UNMOUNT", "IN_Q_OVERFLOW", "IN_IGNORED", "IN_ONLYDIR",
   "IN_DONT_FOLLOW", "IN_EXCL_UNL", "IN_MASK_ADD", "IN_ISDIR",
   "IN_ONESHOT"]

/-- The method attributes resolvable on an `EventMap` instance: those
defined by the class in src/pyinotifyd/__init__.py plus those
inherited from `pyinotify.ProcessEvent` / `_ProcessEvent` (external
dependency).  There is no attribute named `set`: the earlier
`EventMap` revision kept in src/pyinotifyd/watch.py had one, the
current class renamed it to `set_scheduler`. -/
def eventMapAttrs : List String :=
  ["my_init", "set_scheduler", "set_exclude_filter", "process_default",
   "schedulers", "nested_pevent", "process_IN_Q_OVERFLOW"]

/-- `EventMap._map`, with schedulers abstracted by identifiers (the
`_SchedulerList` wrapper stores the listed schedulers). -/
structure EventMapState where
  map : String → Option (List Nat)

/-- `EventMap.set_scheduler` (src/pyinotifyd/__init__.py:96): assert
the flag is known; a non-`None` scheduler list is stored for the flag;
`None` deletes the flag's entry if present.  (The wrapping of bare
callables into `TaskScheduler` instances does not affect the map
shape and is not modelled.) -/
def set_scheduler (em : EventMapState) (flag : String)
    (schedulers : Option (List Nat)) : Except PyErr EventMapState :=
  if flag ∉ pyinotifyFlags then
    Except.error (PyErr.assertionError "event_map: invalid flag")
  else
    match schedulers with
    | some insts => Except.ok ⟨fun x => if x = flag then some insts else em.map x⟩
    | none =>
        match em.map flag with
        | some _ => Except.ok ⟨fun x => if x = flag then none else em.map x⟩
        | none => Except.ok em

/-- Models the call `self.set(flag, default_sched)` at
src/pyinotifyd/__init__.py:85.  Attribute resolution on the instance
searches `eventMapAttrs`; since no attribute `set` exists, the call
raises `AttributeError` in Python. -/
def emCallSet (em : EventMapState) (_flag : String) (_ds : Nat) :
    Except PyErr EventMapState :=
  if "set" ∈ eventMapAttrs then
    Except.ok em
  else
    Except.error (PyErr.attributeError "EventMap object has no attribute set")

/-- `EventMap.my_init` (src/pyinotifyd/__init__.py:78): start with an
empty map; when `default_sched` is given, call `self.set(flag,
default_sched)` for every known flag; then apply `set_scheduler` for
each entry of the `event_map` argument.  (`exclude_filter` and the
logger are not modelled.) -/
def my_init (default_sched : Option Nat)
    (event_map : List (String × Option (List Nat))) :
    Except PyErr EventMapState := do
  let em : EventMapState := ⟨fun _ => none⟩
  let em ←
    match default_sched with
    | some ds => pyinotifyFlags.foldlM (fun acc flag => emCallSet acc flag ds) em
    | none => pure em
  event_map.foldlM (fun acc p => set_scheduler acc p.1 p.2) em

/-- The binding loop `my_init` intends: `set_scheduler` (instead of the
missing `set`) applied to every known flag with the default
scheduler. -/
def bindDefaultSched (ds : Nat) : Except PyErr EventMapState :=
  pyinotifyFlags.foldlM
    (fun acc flag => set_scheduler acc flag (some [ds])) ⟨fun _ => none⟩

/-- Look a flag up in the map produced by a (possibly failed)
`EventMap` construction. -/
def emLookup (r : Except PyErr EventMapState) (flag : String) :
    Option (List Nat) :=
  match r with
  | Except.ok em => em.map flag
  | Except.error _ => none

/-! ## Concrete fixtures used by witnesses and counterexamples -/

/-- A close-write event on a regular file. -/
def evA : Event := ⟨"/tmp/a.txt", "IN_CLOSE_WRITE", false, none⟩

/-- A second event on the same path. -/
def evB : Event := ⟨"/tmp/a.txt", "IN_MODIFY", false, none⟩

/-- An event on a different path. -/
def evP : Event := ⟨"/tmp/p", "IN_CLOSE_WRITE", false, none⟩

/-- An unpaused scheduler in single-job mode. -/
def singleSched : TaskScheduler :=
  { files := true, dirs := false, delay := 0, singlejob := true,
    pause := false, tasks := fun _ => none, nextId := 0, ran := [], logs := [] }

/-- An unpaused scheduler with a debounce delay, empty task map. -/
def debSched : TaskScheduler :=
  { files := true, dirs := false, delay := 2, singlejob := false,
    pause := false, tasks := fun _ => none, nextId := 0, ran := [], logs := [] }

/-- A paused scheduler with an empty task map. -/
def pausedSched : TaskScheduler :=
  { files := true, dirs := false, delay := 5, singlejob := false,
    pause := true, tasks := fun _ => none, nextId := 0, ran := [], logs := [] }

/-- A paused scheduler holding a cancelable TaskState (pending delay
timer) for `/tmp/p`. -/
def pausedWithTask : TaskScheduler :=
  { files := true, dirs := false, delay := 5, singlejob := false,
    pause := true,
    tasks := fun k =>
      if k = "/tmp/p" then some ⟨7, some (Handle.sleepH evP false), true⟩
      else none,
    nextId := 8, ran := [], logs := [] }

/-- A scheduler whose job for `/tmp/p` is already running
(`cancelable = false`). -/
def runningSched : TaskScheduler :=
  { files := true, dirs := false, delay := 0, singlejob := false,
    pause := false,
    tasks := fun k =>
      if k = "/tmp/p" then some ⟨3, some Handle.jobH, false⟩ else none,
    nextId := 4, ran := [(evP, 3)], logs := [] }

/-- A move rule whose regex substitution produces the empty string for
every path and which matches every path. -/
def ruleEmptyDst : FileManagerRule :=
  ⟨FMAction.move, fun _ => true, fun _ => "", false, false, false⟩

/-- A copy rule that matches every path and rewrites it to `/dst/out`,
without the overwrite flag. -/
def ruleToOut : FileManagerRule :=
  ⟨FMAction.copy, fun _ => true, fun _ => "/dst/out", false, false, false⟩

/-- A filesystem on which `/dst/out` already exists. -/
def fsOutExists : FS :=
  ⟨fun p => p = "/dst/out", fun _ => false⟩

/-! ## Theorems -/

/-- C9 counterexample: in single-job mode `taskindex` returns the
string "singlejob" (scheduler.py:108), not "singleton" as the claim
states; evaluated at a concrete scheduler and event. -/
theorem taskindex_singleton_counterexample :
    taskindex singleSched evA = "singlejob" ∧
    taskindex singleSched evA ≠ "singleton" := by
  decide

/-- C9 (amended): `taskindex` returns "singlejob" when the scheduler is
in single-job mode, and the event's pathname otherwise. -/
theorem taskindex_key_value (s : TaskScheduler) (e : Event) :
    (s.singlejob = true → taskindex s e = "singlejob") ∧
    (s.singlejob = false → taskindex s e = e.pathname) := by
  refine ⟨fun h => ?_, fun h => ?_⟩ <;> simp [taskindex, h]

/-- C9 witness: the amended statement evaluated at concrete
schedulers. -/
theorem taskindex_key_value_witness :
    taskindex singleSched evA = "singlejob" ∧
    taskindex debSched evA = "/tmp/a.txt" :=
  ⟨(taskindex_key_value singleSched evA).1 rfl,
   (taskindex_key_value debSched evA).2 rfl⟩

/-- C10: `FileManagerScheduler.__init__` forwards `singlejob=False` to
the base constructor, so every successfully constructed instance has
`singlejob = false` and its `taskindex` is the event pathname for
every event; passing an explicit `singlejob` keyword argument makes
construction fail with a `TypeError` instead of enabling single-job
mode. -/
theorem filemanager_never_singlejob (rules : List FileManagerRule)
    (kw : TSKwargs) :
    (∀ s rs, fileManagerScheduler_init rules kw = Except.ok (s, rs) →
      s.singlejob = false ∧ ∀ e, taskindex s e = e.pathname) ∧
    (∀ b, kw.singlejob = some b →
      ∃ m, fileManagerScheduler_init rules kw = Except.error (PyErr.typeError m)) := by
  constructor
  · intro s rs h
    cases hkw : kw.singlejob with
    | some b => simp [fileManagerScheduler_init, hkw] at h
    | none =>
        simp only [fileManagerScheduler_init, hkw, Except.ok.injEq,
          Prod.mk.injEq] at h
        obtain ⟨h1, _⟩ := h
        subst h1
        exact ⟨rfl, fun e => rfl⟩
  · intro b hb
    exact ⟨"got multiple values for keyword argument singlejob",
      by simp [fileManagerScheduler_init, hb]⟩

/-- C10 witness: at a concrete rule list, construction without an
explicit `singlejob` keyword succeeds with pathname-keyed `taskindex`,
and construction with `singlejob=true` passed explicitly raises
`TypeError`. -/
theorem filemanager_never_singlejob_witness :
    (∀ s rs,
      fileManagerScheduler_init [ruleToOut] ⟨true, false, 0, none⟩ =
        Except.ok (s, rs) →
      s.singlejob = false ∧ ∀ e, taskindex s e = e.pathname) ∧
    (∃ m, fileManagerScheduler_init [ruleToOut] ⟨true, false, 0, some true⟩ =
      Except.error (PyErr.typeError m)) :=
  ⟨fun s rs h =>
    (filemanager_never_singlejob [ruleToOut] ⟨true, false, 0, none⟩).1 s rs h,
   (filemanager_never_singlejob [ruleToOut] ⟨true, false, 0, some true⟩).2
     true rfl⟩

/-- C7: `ShellScheduler._shell_job` substitutes the shell-quoted
primary flag, pathname and src_pathname into the command template; on
the S4 input (maskname "IN_MOVED_TO|IN_ISDIR", pathname "/t/b c",
src_pathname "/t/a d") the executed command is exactly
`echo IN_MOVED_TO` followed by the two single-quoted paths, and for an
event without `src_pathname` the placeholder is replaced by the quoted
empty string (two apostrophes). -/
theorem shell_template_substitution :
    shellJobCmd "echo {maskname} {pathname} {src_pathname}"
        ⟨"/t/b c", "IN_MOVED_TO|IN_ISDIR", false, some "/t/a d"⟩
      = "echo IN_MOVED_TO " ++ sq ++ "/t/b c" ++ sq ++ " " ++ sq ++
          "/t/a d" ++ sq ∧
    shellJobCmd "echo {maskname} {pathname} {src_pathname}"
        ⟨"/t/b c", "IN_MOVED_TO|IN_ISDIR", false, none⟩
      = "echo IN_MOVED_TO " ++ sq ++ "/t/b c" ++ sq ++ " " ++ sq ++ sq := by
  decide

/-- C6: constructing an `EventMap` with a default scheduler does not
succeed: `my_init` calls the nonexistent method `self.set`, so the
construction raises `AttributeError` (the claim and spec say every
known flag gets bound); the intended binding loop via the existing
`set_scheduler` method would indeed bind every known flag. -/
theorem eventmap_default_sched_attribute_error :
    (∃ m, my_init (some 0) [] = Except.error (PyErr.attributeError m)) ∧
    (∀ flag ∈ pyinotifyFlags, emLookup (bindDefaultSched 0) flag = some [0]) :=
  ⟨⟨"EventMap object has no attribute set", rfl⟩, by decide⟩

/-- C5: whenever the job for key `taskindex s e` reaches the end of
`_run_job` — whatever the outcome: success, a raised exception, or
cancellation — the `finally` block removes the entry from the tasks
map, leaving every other key untouched. -/
theorem cleanup_after_job (s : TaskScheduler) (e : Event) (o : JobOutcome)
    (ts : TaskState) (h : s.tasks (taskindex s e) = some ts) :
    ∃ s', job_finish s e o = Except.ok s' ∧
      s'.tasks (taskindex s e) = none ∧
      (∀ k, k ≠ taskindex s e → s'.tasks k = s.tasks k) ∧
      s'.ran = s.ran := by
  have hjf : job_finish s e o = Except.ok { s with
      tasks := updT s.tasks (taskindex s e) none,
      logs := s.logs ++
        [if o = JobOutcome.cancelled then
          (LogLevel.warning, msgOngoingCancelled)
         else (LogLevel.info, msgFinished)] } := by
    unfold job_finish
    rw [h]
  refine ⟨_, hjf, by simp [updT], fun k hk => ?_, rfl⟩
  simp [updT, hk]

/-- C5 witness: the cleanup theorem applied to a scheduler with a
running job for `/tmp/p`, for the cancellation outcome. -/
theorem cleanup_after_job_witness :
    ∃ s', job_finish runningSched evP JobOutcome.cancelled = Except.ok s' ∧
      s'.tasks (taskindex runningSched evP) = none ∧
      (∀ k, k ≠ taskindex runningSched evP →
        s'.tasks k = runningSched.tasks k) ∧
      s'.ran = runningSched.ran :=
  cleanup_after_job runningSched evP JobOutcome.cancelled
    ⟨3, some Handle.jobH, false⟩ rfl

/-- C3: the claim (errors are always absorbed inside the entry points)
is contradicted by the code: a paused scheduler admits a fresh event
and stores a TaskState whose task handle is `None`; the next
`process_event` or `process_cancel_event` for the same key then calls
`task_state.task.cancel()` on `None` and raises `AttributeError` to
the caller. -/
theorem entrypoint_error_escape :
    ∃ s1, process_event pausedSched evA = Except.ok s1 ∧
      s1.tasks "/tmp/a.txt" = some ⟨0, none, true⟩ ∧
      (∃ m, process_event s1 evB = Except.error (PyErr.attributeError m)) ∧
      (∃ m, process_cancel_event s1 evB = Except.error (PyErr.attributeError m)) := by
  refine ⟨_, rfl, by decide,
    ⟨"NoneType object has no attribute cancel", by rfl⟩,
    ⟨"NoneType object has no attribute cancel", by rfl⟩⟩

/-- C8: when the job's rule has action copy or move and either the
regex substitution yields an empty destination or the destination
exists and the rule lacks `overwrite`, `_manager_job` raises a
`RuntimeError` before performing any filesystem operation; the error
is absorbed by the job's own handler and reported at error level, so
the job returns normally. -/
theorem filemanager_copymove_precondition
    (fs : FS) (rules : List FileManagerRule) (rule : FileManagerRule)
    (path : String)
    (hr : get_rule_by_event rules path = some rule)
    (ha : rule.action = FMAction.copy ∨ rule.action = FMAction.move)
    (hpre : rule.subFn path = "" ∨
      (fs.pathExists (rule.subFn path) = true ∧ rule.overwrite = false)) :
    ∃ m, manager_job fs rules path = ([], [(LogLevel.error, m)]) := by
  by_cases hdst : rule.subFn path = ""
  · have htry : managerJobTry fs rule path =
        Except.error "resulting destination path is empty" := by
      unfold managerJobTry
      rcases ha with h | h <;> rw [h] <;> simp [hdst]
    refine ⟨"resulting destination path is empty", ?_⟩
    simp [manager_job, hr, htry]
  · obtain ⟨hex, hover⟩ := hpre.resolve_left hdst
    have htry : managerJobTry fs rule path =
        Except.error "path already exists" := by
      unfold managerJobTry
      rcases ha with h | h <;> rw [h] <;> simp [hdst, hex, hover]
    refine ⟨"path already exists", ?_⟩
    simp [manager_job, hr, htry]

/-- C8 witness: the precondition theorem applied to a move rule whose
substitution is empty and to a copy rule whose destination already
exists on the filesystem. -/
theorem filemanager_copymove_precondition_witness :
    (∃ m, manager_job fsOutExists [ruleEmptyDst] "/src/in"
      = ([], [(LogLevel.error, m)])) ∧
    (∃ m, manager_job fsOutExists [ruleToOut] "/src/in"
      = ([], [(LogLevel.error, m)])) :=
  ⟨filemanager_copymove_precondition fsOutExists [ruleEmptyDst] ruleEmptyDst
      "/src/in" rfl (Or.inr rfl) (Or.inl rfl),
   filemanager_copymove_precondition fsOutExists [ruleToOut] ruleToOut
      "/src/in" rfl (Or.inl rfl) (Or.inr ⟨by decide, rfl⟩)⟩

/-- `timer_fire` is a no-op at a key whose entry does not hold an
uncancelled sleep handle (a cancelled sleep resumes its `_run_job`
with `CancelledError`, which returns immediately). -/
theorem timer_fire_noop (s : TaskScheduler) (k : String) (ts : TaskState)
    (hts : s.tasks k = some ts)
    (h : ∀ e0, ts.task ≠ some (Handle.sleepH e0 false)) :
    timer_fire s k = s := by
  unfold timer_fire
  rw [hts]
  cases htask : ts.task with
  | none => simp [htask]
  | some hd =>
      cases hd with
      | jobH => simp [htask]
      | sleepH e0 c =>
          cases c with
          | false => exact absurd htask (h e0)
          | true => simp [htask]

/-- C4 counterexample: a paused scheduler holding a cancelable
TaskState for the event's key does not remove the entry in
`process_event`, contrary to the claim: at this concrete input the
entry is still present afterwards. -/
theorem paused_reschedule_counterexample :
    ∃ s', process_event pausedWithTask evP = Except.ok s' ∧
      s'.tasks "/tmp/p" ≠ none := by
  refine ⟨_, rfl, by decide⟩

/-- C4 (amended): for an event processed by a paused scheduler whose
tasks map holds a cancelable TaskState at the event's key,
`process_event` cancels the pending handle, logs "scheduled task
cancelled" and returns without restarting or running the job — but
the entry stays in the tasks map (it is not removed); the retained
cancelled timer never fires into a job. -/
theorem paused_event_cancels_but_retains_entry
    (s : TaskScheduler) (e : Event) (ts : TaskState) (h : Handle)
    (hp : s.pause = true)
    (hacc : acceptEvent s e = true)
    (hk : s.tasks (taskindex s e) = some ts)
    (hc : ts.cancelable = true)
    (ht : ts.task = some h) :
    ∃ s', process_event s e = Except.ok s' ∧
      s'.tasks (taskindex s e) = some { ts with task := some (cancelHandle h) } ∧
      (∀ k', k' ≠ taskindex s e → s'.tasks k' = s.tasks k') ∧
      s'.ran = s.ran ∧
      s'.logs = s.logs ++ [(LogLevel.info, msgSchedCancelled)] ∧
      timer_fire s' (taskindex s e) = s' := by
  have hpe : process_event s e = Except.ok { s with
      tasks := updT s.tasks (taskindex s e)
        (some { ts with task := some (cancelHandle h) }),
      logs := s.logs ++ [(LogLevel.info, msgSchedCancelled)] } := by
    unfold process_event
    simp [hacc, hk, hc, ht, hp]
  refine ⟨_, hpe, by simp [updT], fun k' hk' => by simp [updT, hk'], rfl, rfl, ?_⟩
  refine timer_fire_noop _ _ { ts with task := some (cancelHandle h) }
    (by simp [updT]) ?_
  intro e0
  cases h <;> simp [cancelHandle]

/-- C4 witness: the amended statement at the concrete paused
scheduler holding a pending timer for `/tmp/p`. -/
theorem paused_event_retains_entry_witness :
    ∃ s', process_event pausedWithTask evP = Except.ok s' ∧
      s'.tasks (taskindex pausedWithTask evP)
        = some ⟨7, some (Handle.sleepH evP true), true⟩ ∧
      (∀ k', k' ≠ taskindex pausedWithTask evP →
        s'.tasks k' = pausedWithTask.tasks k') ∧
      s'.ran = pausedWithTask.ran ∧
      s'.logs = pausedWithTask.logs ++ [(LogLevel.info, msgSchedCancelled)] ∧
      timer_fire s' (taskindex pausedWithTask evP) = s' :=
  paused_event_cancels_but_retains_entry pausedWithTask evP
    ⟨7, some (Handle.sleepH evP false), true⟩ (Handle.sleepH evP false)
    rfl rfl rfl rfl rfl

/-! ## Helper lemmas on the task map and on the shape of the
entry-point results -/

theorem updT_same (m : String → Option TaskState) (k : String)
    (v : Option TaskState) : updT m k v k = v := by
  simp [updT]

theorem updT_ne (m : String → Option TaskState) (k : String)
    (v : Option TaskState) (k' : String) (h : k' ≠ k) :
    updT m k v k' = m k' := by
  simp [updT, h]

theorem updT_updT (m : String → Option TaskState) (k : String)
    (a b : Option TaskState) : updT (updT m k a) k b = updT m k b := by
  funext x
  by_cases hx : x = k <;> simp [updT, hx]

/-- Shape of any successful `process_event` call: either the state is
returned unchanged (filtered event), or only a log line is appended
(skip due to ongoing task), or the tasks map is updated at the
event's key — and in that last case the key previously held no entry
or held a cancelable one. -/
theorem process_event_cases (t : TaskScheduler) (e : Event)
    (t' : TaskScheduler) (hok : process_event t e = Except.ok t') :
    (t'.tasks = t.tasks ∧ t'.ran = t.ran) ∨
    (∃ v, t'.tasks = updT t.tasks (taskindex t e) (some v) ∧
      (t.tasks (taskindex t e) = none ∨
       ∃ ts0, t.tasks (taskindex t e) = some ts0 ∧ ts0.cancelable = true)) := by
  simp only [process_event] at hok
  split at hok
  · injection hok with h'
    subst h'
    exact Or.inl ⟨rfl, rfl⟩
  · split at hok
    · next hnone =>
        split at hok
        · injection hok with h'
          subst h'
          exact Or.inr ⟨_, rfl, Or.inl hnone⟩
        · unfold runJobStart at hok
          split at hok
          · injection hok with h'
            subst h'
            exact Or.inr ⟨_, updT_updT t.tasks (taskindex t e) _ _,
              Or.inl hnone⟩
          · injection hok with h'
            subst h'
            exact Or.inr ⟨_, updT_updT t.tasks (taskindex t e) _ _,
              Or.inl hnone⟩
    · next ts0 hts0 =>
        split at hok
        · next hcanc =>
            split at hok
            · exact Except.noConfusion hok
            · split at hok
              · injection hok with h'
                subst h'
                exact Or.inr ⟨_, rfl, Or.inr ⟨ts0, hts0, hcanc⟩⟩
              · unfold runJobStart at hok
                split at hok
                · injection hok with h'
                  subst h'
                  exact Or.inr ⟨_, updT_updT t.tasks (taskindex t e) _ _,
                    Or.inr ⟨ts0, hts0, hcanc⟩⟩
                · injection hok with h'
                  subst h'
                  exact Or.inr ⟨_, updT_updT t.tasks (taskindex t e) _ _,
                    Or.inr ⟨ts0, hts0, hcanc⟩⟩
        · injection hok with h'
          subst h'
          exact Or.inl ⟨rfl, rfl⟩

/-- Shape of any successful `process_cancel_event` call: either the
tasks map is untouched, or the entry at the event's key — which was
cancelable — is removed. -/
theorem process_cancel_event_cases (t : TaskScheduler) (e : Event)
    (t' : TaskScheduler) (hok : process_cancel_event t e = Except.ok t') :
    t'.tasks = t.tasks ∨
    (t'.tasks = updT t.tasks (taskindex t e) none ∧
      ∃ ts0, t.tasks (taskindex t e) = some ts0 ∧ ts0.cancelable = true) := by
  simp only [process_cancel_event] at hok
  split at hok
  · injection hok with h'
    subst h'
    exact Or.inl rfl
  · next ts0 hts0 =>
      split at hok
      · next hcanc =>
          split at hok
          · exact Except.noConfusion hok
          · injection hok with h'
            subst h'
            exact Or.inr ⟨rfl, ts0, hts0, hcanc⟩
      · injection hok with h'
        subst h'
        exact Or.inl rfl

/-- Entries whose job has started (`cancelable = false`) are never
modified by a successful `process_event`, at any key. -/
theorem process_event_preserves_running (t t' : TaskScheduler) (e : Event)
    (hok : process_event t e = Except.ok t') (k : String) (ts : TaskState)
    (hk : t.tasks k = some ts) (hc : ts.cancelable = false) :
    t'.tasks k = some ts := by
  rcases process_event_cases t e t' hok with ⟨heq, _⟩ | ⟨v, heq, hprev⟩
  · rw [heq, hk]
  · rw [heq]
    by_cases hkk : k = taskindex t e
    · subst hkk
      rcases hprev with hnone | ⟨ts0, hts0, hcanc⟩
      · rw [hk] at hnone
        exact Option.noConfusion hnone
      · rw [hk] at hts0
        injection hts0 with h'
        subst h'
        rw [hc] at hcanc
        exact Bool.noConfusion hcanc
    · rw [updT_ne _ _ _ _ hkk, hk]

/-- Entries whose job has started are never modified by a successful
`process_cancel_event`, at any key. -/
theorem process_cancel_event_preserves_running (t t' : TaskScheduler)
    (e : Event) (hok : process_cancel_event t e = Except.ok t')
    (k : String) (ts : TaskState)
    (hk : t.tasks k = some ts) (hc : ts.cancelable = false) :
    t'.tasks k = some ts := by
  rcases process_cancel_event_cases t e t' hok with heq | ⟨heq, ts0, hts0, hcanc⟩
  · rw [heq, hk]
  · rw [heq]
    by_cases hkk : k = taskindex t e
    · subst hkk
      rw [hk] at hts0
      injection hts0 with h'
      subst h'
      rw [hc] at hcanc
      exact Bool.noConfusion hcanc
    · rw [updT_ne _ _ _ _ hkk, hk]

/-- `timer_fire` preserves `cancelable = false` at every key (it only
ever sets the flag to false, never back to true). -/
theorem timer_fire_preserves_false (t : TaskScheduler) (kf k : String)
    (ts : TaskState) (hk : t.tasks k = some ts) (hc : ts.cancelable = false) :
    ∃ ts2, (timer_fire t kf).tasks k = some ts2 ∧ ts2.cancelable = false := by
  unfold timer_fire
  split
  · split
    · next tsf ef heq =>
        by_cases hkk : k = kf
        · subst hkk
          exact ⟨_, updT_same _ _ _, rfl⟩
        · exact ⟨ts, by simp only [updT_ne _ _ _ _ hkk]; exact hk, hc⟩
    · exact ⟨ts, hk, hc⟩
  · exact ⟨ts, hk, hc⟩

/-- `job_finish` either removes an entry (at the finished job's key) or
leaves it unchanged. -/
theorem job_finish_preserves (t t' : TaskScheduler) (e : Event)
    (o : JobOutcome) (hok : job_finish t e o = Except.ok t')
    (k : String) (ts : TaskState) (hk : t.tasks k = some ts) :
    t'.tasks k = none ∨ t'.tasks k = some ts := by
  simp only [job_finish] at hok
  split at hok
  · exact Except.noConfusion hok
  · injection hok with h'
    subst h'
    by_cases hkk : k = taskindex t e
    · subst hkk
      exact Or.inl (updT_same _ _ _)
    · exact Or.inr (by simp only [updT_ne _ _ _ _ hkk]; exact hk)

/-- C2: once a TaskState's job has started (`cancelable = false`), the
two event entry points leave it — and the whole tasks map — untouched,
only logging "skip event due to ongoing task"; moreover no modelled
step ever turns `cancelable` back to true: successful `process_event`
and `process_cancel_event` calls leave non-cancelable entries intact,
`timer_fire` keeps the flag false at every key, and `job_finish` at
most removes an entry. -/
theorem cancelable_monotone_noninterruption
    (s : TaskScheduler) (k : String) (ts : TaskState)
    (hk : s.tasks k = some ts) (hc : ts.cancelable = false) :
    (∀ e, taskindex s e = k →
      ∃ s', process_event s e = Except.ok s' ∧
        s'.tasks = s.tasks ∧ s'.ran = s.ran) ∧
    (∀ e, taskindex s e = k →
      process_cancel_event s e =
        Except.ok { s with logs := s.logs ++ [(LogLevel.warning, msgSkip)] }) ∧
    (∀ (t t' : TaskScheduler) (e : Event) (k' : String) (ts' : TaskState),
      process_event t e = Except.ok t' → t.tasks k' = some ts' →
      ts'.cancelable = false → t'.tasks k' = some ts') ∧
    (∀ (t t' : TaskScheduler) (e : Event) (k' : String) (ts' : TaskState),
      process_cancel_event t e = Except.ok t' → t.tasks k' = some ts' →
      ts'.cancelable = false → t'.tasks k' = some ts') ∧
    (∀ (t : TaskScheduler) (kf k' : String) (ts' : TaskState),
      t.tasks k' = some ts' → ts'.cancelable = false →
      ∃ ts2, (timer_fire t kf).tasks k' = some ts2 ∧ ts2.cancelable = false) ∧
    (∀ (t t' : TaskScheduler) (e : Event) (o : JobOutcome) (k' : String)
      (ts' : TaskState),
      job_finish t e o = Except.ok t' → t.tasks k' = some ts' →
      ts'.cancelable = false →
      t'.tasks k' = none ∨ t'.tasks k' = some ts') := by
  refine ⟨fun e hke => ?_, fun e hke => ?_,
    fun t t' e k' ts' h1 h2 h3 =>
      process_event_preserves_running t t' e h1 k' ts' h2 h3,
    fun t t' e k' ts' h1 h2 h3 =>
      process_cancel_event_preserves_running t t' e h1 k' ts' h2 h3,
    fun t kf k' ts' h1 h2 => timer_fire_preserves_false t kf k' ts' h1 h2,
    fun t t' e o k' ts' h1 h2 _ => job_finish_preserves t t' e o h1 k' ts' h2⟩
  · have hk' : s.tasks (taskindex s e) = some ts := by rw [hke]; exact hk
    by_cases hacc : acceptEvent s e = true
    · refine ⟨{ s with logs := s.logs ++ [(LogLevel.warning, msgSkip)] },
        ?_, rfl, rfl⟩
      unfold process_event
      simp [hacc, hk', hc]
    · refine ⟨s, ?_, rfl, rfl⟩
      have hacc' : acceptEvent s e = false := by
        simpa using hacc
      unfold process_event
      simp [hacc']
  · have hk' : s.tasks (taskindex s e) = some ts := by rw [hke]; exact hk
    unfold process_cancel_event
    simp [hk', hc]

/-- C2 witness: at a scheduler whose job for `/tmp/p` is running, a new
event and a cancel event both leave the tasks map and the job record
unchanged, the latter only appending the skip warning. -/
theorem cancelable_monotone_noninterruption_witness :
    (∃ s', process_event runningSched evP = Except.ok s' ∧
      s'.tasks = runningSched.tasks ∧ s'.ran = runningSched.ran) ∧
    process_cancel_event runningSched evP =
      Except.ok { runningSched with
        logs := runningSched.logs ++ [(LogLevel.warning, msgSkip)] } :=
  ⟨(cancelable_monotone_noninterruption runningSched "/tmp/p"
      ⟨3, some Handle.jobH, false⟩ rfl rfl).1 evP rfl,
   (cancelable_monotone_noninterruption runningSched "/tmp/p"
      ⟨3, some Handle.jobH, false⟩ rfl rfl).2.1 evP rfl⟩

/-! ## Debounce coalescing (C1) -/

theorem taskindex_congr (s t : TaskScheduler) (e : Event)
    (h : t.singlejob = s.singlejob) : taskindex t e = taskindex s e := by
  unfold taskindex
  rw [h]

theorem acceptEvent_congr (s t : TaskScheduler) (e : Event)
    (hf : t.files = s.files) (hd : t.dirs = s.dirs) :
    acceptEvent t e = acceptEvent s e := by
  unfold acceptEvent
  rw [hf, hd]

theorem processSeq_cons (s : TaskScheduler) (e : Event) (es : List Event) :
    processSeq s (e :: es) =
      (process_event s e).bind (fun t => processSeq t es) := rfl

theorem getLastD_mem_cons (l : List Event) (a : Event) :
    l.getLastD a ∈ a :: l := by
  induction l generalizing a with
  | nil => simp
  | cons b t ih =>
      rw [List.getLastD_cons]
      exact List.mem_cons_of_mem a (ih b)

/-- Explicit form of a successful `job_finish`. -/
theorem job_finish_ok (t : TaskScheduler) (e : Event) (o : JobOutcome)
    (ts : TaskState) (h : t.tasks (taskindex t e) = some ts) :
    job_finish t e o = Except.ok { t with
      tasks := updT t.tasks (taskindex t e) none,
      logs := t.logs ++
        [if o = JobOutcome.cancelled then
          (LogLevel.warning, msgOngoingCancelled)
         else (LogLevel.info, msgFinished)] } := by
  unfold job_finish
  rw [h]

/-- `timer_fire` at an absent key does nothing. -/
theorem timer_fire_noop_none (t : TaskScheduler) (k : String)
    (h : t.tasks k = none) : timer_fire t k = t := by
  unfold timer_fire
  rw [h]

/-- While a pending (uncancelled) delay timer for key `k` carries event
`cur`, processing any further run of accepted events for `k` — with no
timer expiry in between — succeeds, starts no job, keeps every other
key untouched, and leaves the single TaskState of `k` holding a fresh
timer that carries the last event of the run (or still `cur` for an
empty run), with its original id. -/
theorem processSeq_debounce (s0 : TaskScheduler) (k : String) (i : Nat) :
    ∀ (es : List Event) (s : TaskScheduler) (cur : Event),
    s.files = s0.files → s.dirs = s0.dirs → s.singlejob = s0.singlejob →
    s.pause = false → 0 < s.delay →
    (∀ e ∈ es, taskindex s0 e = k) →
    (∀ e ∈ es, acceptEvent s0 e = true) →
    s.tasks k = some ⟨i, some (Handle.sleepH cur false), true⟩ →
    ∃ s', processSeq s es = Except.ok s' ∧
      s'.files = s0.files ∧ s'.dirs = s0.dirs ∧ s'.singlejob = s0.singlejob ∧
      s'.pause = false ∧ s'.delay = s.delay ∧ s'.ran = s.ran ∧
      s'.nextId = s.nextId ∧
      (∀ k', k' ≠ k → s'.tasks k' = s.tasks k') ∧
      s'.tasks k = some ⟨i, some (Handle.sleepH (es.getLastD cur) false), true⟩ := by
  intro es
  induction es with
  | nil =>
      intro s cur hf hd hsj hp hdel _ _ htask
      exact ⟨s, rfl, hf, hd, hsj, hp, rfl, rfl, rfl, fun _ _ => rfl, htask⟩
  | cons e rest ih =>
      intro s cur hf hd hsj hp hdel hkey hacc htask
      have hke : taskindex s e = k := by
        rw [taskindex_congr s0 s e hsj]
        exact hkey e (List.mem_cons_self e rest)
      have hae : acceptEvent s e = true := by
        rw [acceptEvent_congr s0 s e hf hd]
        exact hacc e (List.mem_cons_self e rest)
      have hstep : process_event s e = Except.ok { s with
          tasks := updT s.tasks k
            (some ⟨i, some (Handle.sleepH e false), true⟩),
          logs := s.logs ++ [(LogLevel.info, msgReschedule)] } := by
        unfold process_event runJobStart
        simp [hae, hke, htask, hp, hdel, cancelHandle, updT_updT]
      obtain ⟨s', hseq, hf', hd', hsj', hp', hdel', hran', hnid', hfr', htask'⟩ :=
        ih { s with
            tasks := updT s.tasks k
              (some ⟨i, some (Handle.sleepH e false), true⟩),
            logs := s.logs ++ [(LogLevel.info, msgReschedule)] } e
          hf hd hsj hp hdel
          (fun e' he' => hkey e' (List.mem_cons_of_mem e he'))
          (fun e' he' => hacc e' (List.mem_cons_of_mem e he'))
          (updT_same _ _ _)
      refine ⟨s', ?_, hf', hd', hsj', hp', hdel', hran', hnid', ?_, ?_⟩
      · rw [processSeq_cons, hstep]
        exact hseq
      · intro k' hk'
        rw [hfr' k' hk']
        exact updT_ne _ _ _ _ hk'
      · rw [htask', List.getLastD_cons]

/-- C1: given a non-empty run of events that share taskindex key `k`,
all accepted by the filter, processed by an unpaused scheduler with a
positive delay and no prior entry at `k` — each event arriving before
the pending timer fires (no `timer_fire` step inside the run) — no job
starts during the run; when the surviving timer then fires, exactly
one job is started, carrying the data of the last event of the run and
the TaskState id created for the first; and completing that job
removes the entry. -/
theorem debounce_coalescing
    (s0 : TaskScheduler) (es : List Event) (k : String) (e1 : Event)
    (rest : List Event) (hes : es = e1 :: rest)
    (hp : s0.pause = false) (hd : 0 < s0.delay)
    (hkey : ∀ e ∈ es, taskindex s0 e = k)
    (hacc : ∀ e ∈ es, acceptEvent s0 e = true)
    (hfresh : s0.tasks k = none) (hran : s0.ran = []) :
    ∃ s1, processSeq s0 es = Except.ok s1 ∧
      s1.ran = [] ∧
      (timer_fire s1 k).ran = [(rest.getLastD e1, s0.nextId)] ∧
      ∃ s2, job_finish (timer_fire s1 k) (rest.getLastD e1) JobOutcome.success
          = Except.ok s2 ∧
        s2.ran = [(rest.getLastD e1, s0.nextId)] ∧
        s2.tasks k = none ∧
        timer_fire s2 k = s2 := by
  subst hes
  have hke1 : taskindex s0 e1 = k := hkey e1 (List.mem_cons_self e1 rest)
  have hae1 : acceptEvent s0 e1 = true := hacc e1 (List.mem_cons_self e1 rest)
  have hstep1 : process_event s0 e1 = Except.ok { s0 with
      tasks := updT s0.tasks k
        (some ⟨s0.nextId, some (Handle.sleepH e1 false), true⟩),
      nextId := s0.nextId + 1,
      logs := s0.logs ++ [(LogLevel.info, msgSchedule)] } := by
    unfold process_event runJobStart
    simp [hae1, hke1, hfresh, hp, hd, updT_updT]
  obtain ⟨s1, hseq, hf1, hd1, hsj1, hp1, hdel1, hran1, hnid1, hfr1, htask1⟩ :=
    processSeq_debounce s0 k s0.nextId rest
      { s0 with
        tasks := updT s0.tasks k
          (some ⟨s0.nextId, some (Handle.sleepH e1 false), true⟩),
        nextId := s0.nextId + 1,
        logs := s0.logs ++ [(LogLevel.info, msgSchedule)] } e1
      rfl rfl rfl hp hd
      (fun e' he' => hkey e' (List.mem_cons_of_mem e1 he'))
      (fun e' he' => hacc e' (List.mem_cons_of_mem e1 he'))
      (updT_same _ _ _)
  have hs1ran : s1.ran = [] := by
    rw [hran1]
    exact hran
  have htf : timer_fire s1 k = { s1 with
      tasks := updT s1.tasks k
        (some ⟨s0.nextId, some Handle.jobH, false⟩),
      ran := s1.ran ++ [(rest.getLastD e1, s0.nextId)],
      logs := s1.logs ++ [(LogLevel.info, msgStart)] } := by
    unfold timer_fire
    rw [htask1]
  have hlastmem : rest.getLastD e1 ∈ e1 :: rest := getLastD_mem_cons rest e1
  have hkelast : taskindex (timer_fire s1 k) (rest.getLastD e1) = k := by
    rw [htf]
    rw [taskindex_congr s0 _ _ (by simpa using hsj1)]
    exact hkey _ hlastmem
  have htftasks : (timer_fire s1 k).tasks k =
      some ⟨s0.nextId, some Handle.jobH, false⟩ := by
    rw [htf]
    exact updT_same _ _ _
  have hts_tf : (timer_fire s1 k).tasks
      (taskindex (timer_fire s1 k) (rest.getLastD e1))
      = some ⟨s0.nextId, some Handle.jobH, false⟩ := by
    rw [hkelast]
    exact htftasks
  have hjf := job_finish_ok (timer_fire s1 k) (rest.getLastD e1)
    JobOutcome.success _ hts_tf
  have hs2k : updT (timer_fire s1 k).tasks
      (taskindex (timer_fire s1 k) (rest.getLastD e1)) none k = none := by
    rw [hkelast]
    exact updT_same _ _ _
  refine ⟨s1, ?_, hs1ran, ?_, ?_⟩
  · rw [processSeq_cons, hstep1]
    exact hseq
  · rw [htf]
    simp [hs1ran]
  · refine ⟨_, hjf, ?_, hs2k, ?_⟩
    · show ((timer_fire s1 k).ran = _)
      rw [htf]
      simp [hs1ran]
    · exact timer_fire_noop_none _ _ hs2k

/-- C1 witness: two close-write events on `/tmp/a.txt` against a fresh
unpaused scheduler with delay 2: the run succeeds with no job started;
the timer then fires exactly one job carrying the second event, and
completion empties the key. -/
theorem debounce_coalescing_witness :
    ∃ s1, processSeq debSched [evA, evB] = Except.ok s1 ∧
      s1.ran = [] ∧
      (timer_fire s1 "/tmp/a.txt").ran = [(evB, 0)] ∧
      ∃ s2, job_finish (timer_fire s1 "/tmp/a.txt") evB JobOutcome.success
          = Except.ok s2 ∧
        s2.ran = [(evB, 0)] ∧
        s2.tasks "/tmp/a.txt" = none ∧
        timer_fire s2 "/tmp/a.txt" = s2 :=
  debounce_coalescing debSched [evA, evB] "/tmp/a.txt" evA [evB] rfl rfl
    (by decide) (by decide) (by decide) rfl rfl

end Pyinotifyd
